import Mathlib

/-!
Verification of the auction-house front end's data-access and
view-synchronization layer, shallowly embedded in Lean 4.

The embedding models JavaScript values with the inductive `JsVal`
(numbers as `Int`; `NaN`, `Infinity` and fractional doubles are outside
the model), fallible JS evaluation (property access on `null`/`undefined`
throws a `TypeError`) with `Except Unit`, browser `localStorage` as a
partial map from keys to stored strings, and each network request's
outcome as an explicit `Except`/`Option` parameter, since the remote
service is outside the program.

Sources embedded here:
  - `src/utils/helpers.js` (`getHighestBidAmount`, `getTimeRemaining`),
  - `src/utils/storage.js` (`saveAuth`, `getToken`, `getProfile`),
  - the dashboard controller (`createListingCard`'s bid click handler,
    `placeBid`, `fetchListingById`, `refreshProfileCredits`),
  - the listing-detail controller (`handleBidSubmit`, `placeBid`,
    `fetchListing`, `renderListing`'s highest-bid text),
  - the edit-listing controller (`updateListing`'s error extraction and
    the `DOMContentLoaded` load flow with `populateForm`),
  - the search controller (`handleSearchSubmit`).
-/

/-- Model of a JavaScript value. Numbers are modeled as `Int`
(`NaN`/`Infinity`/fractional doubles are outside the model; none of the
verified properties depends on them). -/
inductive JsVal where
  | null
  | undefined
  | boolean : Bool → JsVal
  | number : Int → JsVal
  | string : String → JsVal
  | array : List JsVal → JsVal
  | object : List (String × JsVal) → JsVal

/-- JavaScript truthiness: `null`, `undefined`, `false`, `0` and `""` are
falsy, everything else (including every array and object) is truthy. -/
def truthy : JsVal → Bool
  | .null => false
  | .undefined => false
  | .boolean b => b
  | .number n => n ≠ 0
  | .string s => s ≠ ""
  | .array _ => true
  | .object _ => true

/-- Whether a value is `null` or `undefined` (the two values on which
property access throws a `TypeError`). -/
def isNullish : JsVal → Bool
  | .null => true
  | .undefined => true
  | _ => false

/-- Whether a value is exactly `undefined`. -/
def isUndef : JsVal → Bool
  | .undefined => true
  | _ => false

/-- Look a key up in an object's field list; a missing key reads as
`undefined`, as in JavaScript. -/
def lookupField (fs : List (String × JsVal)) (k : String) : JsVal :=
  (fs.lookup k).getD .undefined

/-- Property access `v[k]` on a value already known not to be
`null`/`undefined`: objects use their fields, primitives and arrays have
no named data properties in this model and read as `undefined`. -/
def fieldOf (v : JsVal) (k : String) : JsVal :=
  match v with
  | .object fs => lookupField fs k
  | _ => .undefined

/-- Property access `v.k` with JavaScript's throwing semantics: access on
`null` or `undefined` throws a `TypeError` (modeled as `.error ()`). -/
def getField (v : JsVal) (k : String) : Except Unit JsVal :=
  match v with
  | .null => .error ()
  | .undefined => .error ()
  | _ => .ok (fieldOf v k)

/-- Optional-chained property access `v?.k`: `undefined` when the base is
nullish, a plain (non-throwing) access otherwise. -/
def optField (v : JsVal) (k : String) : JsVal :=
  if isNullish v then .undefined else fieldOf v k

/-- Index access `v[0]` on a non-nullish value: arrays yield their first
element (or `undefined`), objects their `"0"` field, one-character reads
on strings, everything else `undefined`. -/
def jsIndex0 (v : JsVal) : JsVal :=
  match v with
  | .array xs => (xs.head?).getD .undefined
  | .object fs => lookupField fs "0"
  | .string s =>
      match s.data.head? with
      | some c => .string ⟨[c]⟩
      | none => .undefined
  | _ => .undefined

/-- JavaScript `String(v)` coercion for the values this app ever
coerces (primitives). Arrays and objects are mapped to the fixed
`"[object Object]"` marker; the app only coerces strings and numbers
(tokens, error messages, statuses), so this corner is never exercised. -/
def jsToString : JsVal → String
  | .null => "null"
  | .undefined => "undefined"
  | .boolean true => "true"
  | .boolean false => "false"
  | .number n => toString n
  | .string s => s
  | .array _ => "[object Object]"
  | .object _ => "[object Object]"

/-- Strict equality `a === b` for primitive operands; distinct objects or
arrays compare by reference in JavaScript and are conservatively unequal
here (the compared values in this development are primitives from two
distinct fetch responses). -/
def jsStrictEq : JsVal → JsVal → Bool
  | .null, .null => true
  | .undefined, .undefined => true
  | .boolean a, .boolean b => a = b
  | .number a, .number b => a = b
  | .string a, .string b => a = b
  | _, _ => false

/-- One assignment step of an object literal / `Object.assign`: set key
`k` to `v`, overwriting in place if the key exists, appending otherwise
(JavaScript keeps the first-insertion position of a key). -/
def setKey (k : String) (v : JsVal) (fs : List (String × JsVal)) :
    List (String × JsVal) :=
  if fs.any (fun kv => kv.1 = k) then
    fs.map (fun kv => if kv.1 = k then (k, v) else kv)
  else fs ++ [(k, v)]

/-- Build the field list of an object literal written with possibly
repeated keys (later occurrences override, first occurrence fixes the
position), as in `{ accessToken: token, ...profile }`. -/
def objLit (fs : List (String × JsVal)) : List (String × JsVal) :=
  fs.foldl (fun acc kv => setKey kv.1 kv.2 acc) []

/-- Remove every binding of key `k`, modeling the rest element of
`const { accessToken, ...profile } = data`. -/
def eraseKey (k : String) (fs : List (String × JsVal)) :
    List (String × JsVal) :=
  fs.filter (fun kv => kv.1 ≠ k)

/-- Fields of a value when it is an object, `[]` otherwise. -/
def fieldsOf : JsVal → List (String × JsVal)
  | .object fs => fs
  | _ => []

/-- Model of `Object.assign(target, source)` for an object target: every own field
of the source is written onto the target in order. A nullish source is
skipped, as in JavaScript; primitive sources (whose index properties
JavaScript would copy) are outside the model and skipped too. -/
def objAssign (t s : JsVal) : JsVal :=
  match t, s with
  | .object tf, .object sf =>
      .object (sf.foldl (fun acc kv => setKey kv.1 kv.2 acc) tf)
  | t, _ => t

/-! ### View-model helpers (`src/utils/helpers.js`) -/

/-- Embedding of `getHighestBidAmount(listing)` from
`src/utils/helpers.js`: if `listing.bids` is not an array or is empty the
result is `0`; otherwise `bids.reduce` starting at `0` keeps the larger
of the accumulator and each bid's `amount` (non-numeric amounts read as
`0`). `bid.amount` on a `null`/`undefined` array entry throws, hence the
`Except`. -/
def getHighestBidAmount (listing : JsVal) : Except Unit Int := do
  let bids ← getField listing "bids"
  match bids with
  | .array l =>
      if l.length = 0 then pure 0
      else
        l.foldlM (fun mx bid => do
          let av ← getField bid "amount"
          let amount : Int := match av with | .number n => n | _ => 0
          pure (if amount > mx then amount else mx)) 0
  | _ => pure 0

/-- Embedding of `getTimeRemaining(endsAt)` from `src/utils/helpers.js`.
`parse` models `new Date(s).getTime()` (`none` for an Invalid Date's
`NaN`), `nowMs` models `Date.now()`. A falsy `endsAt` (absent or `""`)
returns `""`; an unparseable date makes every `Math.floor` produce `NaN`,
every `>=`/`>` comparison with `NaN` false, and the final template yields
the literal `"in about NaN minute"`. -/
def getTimeRemaining (parse : String → Option Int) (nowMs : Int)
    (endsAt : Option String) : String :=
  match endsAt with
  | none => ""
  | some s =>
    if s = "" then ""
    else
      match parse s with
      | none => "in about NaN minute"
      | some endMs =>
        let diffMs := endMs - nowMs
        if diffMs ≤ 0 then "Ended"
        else
          let d := diffMs.toNat
          let diffMinutes := d / 60000
          let diffHours := diffMinutes / 60
          let diffDays := diffHours / 24
          if diffDays ≥ 1 then
            "in about " ++ toString diffDays ++ " day" ++
              (if diffDays > 1 then "s" else "")
          else if diffHours ≥ 1 then
            "in about " ++ toString diffHours ++ " hour" ++
              (if diffHours > 1 then "s" else "")
          else
            "in about " ++ toString diffMinutes ++ " minute" ++
              (if diffMinutes > 1 then "s" else "")

/-- Specification-side rendering of a strictly positive remaining time of
`d` milliseconds: the largest applicable unit among days, hours, minutes
(minutes also when less than one minute remains), with the plural `s`
exactly when the count exceeds one. Stated with flat divisions so that
agreement with the nested divisions of the code is a real statement. -/
def timeRemainingFuture (d : Nat) : String :=
  if d ≥ 86400000 then
    "in about " ++ toString (d / 86400000) ++ " day" ++
      (if d / 86400000 > 1 then "s" else "")
  else if d ≥ 3600000 then
    "in about " ++ toString (d / 3600000) ++ " hour" ++
      (if d / 3600000 > 1 then "s" else "")
  else
    "in about " ++ toString (d / 60000) ++ " minute" ++
      (if d / 60000 > 1 then "s" else "")

/-! ### Auth store (`src/utils/storage.js`) -/

/-- Model of one string held in `localStorage`. The app writes either a
raw string (the bearer token) or the `JSON.stringify` image of a value
(the profile); a `.plain` string models every string that is not valid
JSON, so `JSON.parse` succeeds exactly on `.jsonOf` values.
`JSON.stringify` is modeled as the identity embedding of the value: the
app only serializes objects taken from parsed JSON responses, which
contain no `undefined` members (the one case where real `JSON.stringify`
would differ by dropping fields). -/
inductive StoredStr where
  | plain : String → StoredStr
  | jsonOf : JsVal → StoredStr

/-- JavaScript truthiness of a stored string: only the empty raw string
is falsy (a serialized JSON value is never the empty string). -/
def storedTruthy : StoredStr → Bool
  | .plain s => s ≠ ""
  | .jsonOf _ => true

/-- The stored string read back as a JavaScript string value. In every
app-reachable store the token cell holds a `.plain` string; the
serialization text of a `.jsonOf` cell is not representable in this
model and is mapped to a fixed marker. -/
def storedToJs : StoredStr → JsVal
  | .plain s => .string s
  | .jsonOf _ => .string "[stored-json]"

/-- Model of `JSON.parse` inside a `try`: succeeds exactly on serialized values. -/
def tryJsonParse : StoredStr → Option JsVal
  | .plain _ => none
  | .jsonOf v => some v

/-- The browser's origin-scoped `localStorage`, as a partial map. -/
def Store : Type := String → Option StoredStr

/-- Embedding of `localStorage.getItem`. -/
def getItem (k : String) (st : Store) : Option StoredStr := st k

/-- Embedding of `localStorage.setItem`. -/
def setItem (k : String) (v : StoredStr) (st : Store) : Store :=
  fun k' => if k' = k then some v else st k'

/-- Embedding of `localStorage.removeItem`. -/
def removeItem (k : String) (st : Store) : Store :=
  fun k' => if k' = k then none else st k'

/-- Storage key of the bearer token. -/
def TOKEN_KEY : String := "ah_token"

/-- Storage key of the serialized profile. -/
def PROFILE_KEY : String := "ah_profile"

/-- Embedding of `saveAuth(data)` from `src/utils/storage.js`: the
`accessToken` field is destructured off `data`; if it is truthy it is
written to the token key; the remaining fields are serialized to the
profile key unconditionally. -/
def saveAuth (data : List (String × JsVal)) (st : Store) : Store :=
  let accessToken := (data.lookup "accessToken").getD .undefined
  let profile := eraseKey "accessToken" data
  let st1 :=
    if truthy accessToken then
      setItem TOKEN_KEY (.plain (jsToString accessToken)) st
    else st
  setItem PROFILE_KEY (.jsonOf (.object profile)) st1

/-- Embedding of `getToken()`: the raw stored token string, if any. -/
def getToken (st : Store) : Option StoredStr :=
  getItem TOKEN_KEY st

/-- Embedding of `getProfile()`: `null` when the profile key is absent or
holds a falsy (empty) string, the `JSON.parse` of the stored string
otherwise, with a parse failure caught and converted to `null`. -/
def getProfile (st : Store) : Option JsVal :=
  match getItem PROFILE_KEY st with
  | none => none
  | some raw => if storedTruthy raw then tryJsonParse raw else none

/-- Embedding of `clearAuth()`. -/
def clearAuth (st : Store) : Store :=
  removeItem PROFILE_KEY (removeItem TOKEN_KEY st)

/-! ### API gateway error-message extraction (§4.2) -/

/-- The chain `errs?.[0]?.message` applied to the value of an `errors`
field: optional chaining short-circuits to `undefined` on a nullish base
at either step. -/
def errorsChainMsg (errs : JsVal) : JsVal :=
  if isNullish errs then .undefined
  else
    let e0 := jsIndex0 errs
    if isNullish e0 then .undefined
    else fieldOf e0 "message"

/-- The fully guarded chain `body?.errors?.[0]?.message`. -/
def optErrorsChainMsg (body : JsVal) : JsVal :=
  if isNullish body then .undefined
  else errorsChainMsg (fieldOf body "errors")

/-- Error message of the dashboard controller's `placeBid` and
`fetchListingById`: `errorBody.errors?.[0]?.message` (an unguarded first
access, throwing on a nullish parsed body) with the
`` `API error: ${status}` `` fallback; no generic `message`-field step. -/
def errMsgDashboard (body : JsVal) (status : Nat) : Except Unit String := do
  let errs ← getField body "errors"
  let m := errorsChainMsg errs
  pure (if truthy m then jsToString m else "API error: " ++ toString status)

/-- Error message of the listing-detail controller's `fetchListing`:
`data?.errors?.[0]?.message || data?.message ||`
`` `Failed to load listing (${res.status})` ``. -/
def errMsgDetailFetch (body : JsVal) (status : Nat) : String :=
  let m1 := optErrorsChainMsg body
  if truthy m1 then jsToString m1
  else
    let m2 := optField body "message"
    if truthy m2 then jsToString m2
    else "Failed to load listing (" ++ toString status ++ ")"

/-- Error message of the listing-detail controller's `placeBid`:
`data?.errors?.[0]?.message || data?.message ||`
`` `Failed to place bid (${res.status})` ``. -/
def errMsgDetailPlaceBid (body : JsVal) (status : Nat) : String :=
  let m1 := optErrorsChainMsg body
  if truthy m1 then jsToString m1
  else
    let m2 := optField body "message"
    if truthy m2 then jsToString m2
    else "Failed to place bid (" ++ toString status ++ ")"

/-- Error message of the edit controller's `updateListing`:
`data?.errors?.[0]?.message ||`
`` `Failed to update listing (${res.status})` `` — no generic
`message`-field step. -/
def errMsgUpdateListing (body : JsVal) (status : Nat) : String :=
  let m1 := optErrorsChainMsg body
  if truthy m1 then jsToString m1
  else "Failed to update listing (" ++ toString status ++ ")"

/-- The first structured error message of a response body, read as the
specification describes it: the truthy `errors[0].message`, if any. -/
def claimFirstStructuredMsg (body : JsVal) : Option String :=
  let m := optErrorsChainMsg body
  if truthy m then some (jsToString m) else none

/-- The generic `message` field of a response body, when truthy. -/
def claimGenericMsg (body : JsVal) : Option String :=
  let m := optField body "message"
  if truthy m then some (jsToString m) else none

/-- The error message exactly as the specification's sentence describes
it: first structured error message, else the generic `message` field,
else the fallback string `"API error: <status>"`. -/
def claimErrMsg (body : JsVal) (status : Nat) : String :=
  match claimFirstStructuredMsg body with
  | some m => m
  | none =>
    match claimGenericMsg body with
    | some m => m
    | none => "API error: " ++ toString status

/-- Specification-side priority chain with the two per-function knobs the
code actually exhibits: whether the generic `message` field is consulted
at all, and the text of the final fallback. -/
def prioErrMsg (body : JsVal) (useMessageField : Bool) (fallback : String) :
    String :=
  match claimFirstStructuredMsg body with
  | some m => m
  | none =>
    if useMessageField then
      match claimGenericMsg body with
      | some m => m
      | none => fallback
    else fallback

/-! ### Search filter (`src/features/search.js`) -/

/-- ASCII lower-casing of one character, as `toLowerCase` acts on the
app's ASCII titles and queries (non-ASCII case mapping is outside the
model). -/
def jsCharLower (c : Char) : Char :=
  if 'A' ≤ c ∧ c ≤ 'Z' then Char.ofNat (c.toNat + 32) else c

/-- Model of `String.prototype.toLowerCase` over the model's alphabet. -/
def jsToLower (s : String) : String := ⟨s.data.map jsCharLower⟩

/-- Whitespace as `String.prototype.trim` strips it (the common ASCII
whitespace characters). -/
def jsIsSpace (c : Char) : Bool :=
  c = ' ' ∨ c = '\t' ∨ c = '\n' ∨ c = '\r'

/-- Model of `String.prototype.trim`: strip leading and trailing whitespace. -/
def jsTrim (s : String) : String :=
  ⟨((s.data.dropWhile jsIsSpace).reverse.dropWhile jsIsSpace).reverse⟩

/-- Model of `hay.includes(needle)`: contiguous substring containment. -/
def strContains (hay needle : String) : Bool :=
  (List.range (hay.data.length + 1)).any
    (fun i => needle.data.isPrefixOf (hay.data.drop i))

/-- The coercion `(v || "")` that the filter applies to `listing.title`
and `listing.description` before lower-casing: falsy values become `""`.
A truthy non-string field would make JavaScript throw at `.toLowerCase()`
and is outside the model (the app's titles and descriptions are strings);
it is coerced here instead. -/
def strOrEmpty (v : JsVal) : String :=
  if truthy v then jsToString v else ""

/-- One listing's test inside `handleSearchSubmit`'s `filter` callback,
for an already trimmed-and-lowercased query. -/
def searchMatches (query : String) (l : JsVal) : Bool :=
  let title := jsToLower (strOrEmpty (fieldOf l "title"))
  let description := jsToLower (strOrEmpty (fieldOf l "description"))
  strContains title query || strContains description query

/-- Embedding of `handleSearchSubmit` from `src/features/search.js`:
`none` models "nothing rendered" (missing input element or missing
`renderListings` global); otherwise the rendered array is the full
listing array when the trimmed, lowercased query is empty, and the
filtered subsequence otherwise. `window.allListings || []` is `listings`
when present and `[]` when absent. -/
def handleSearchSubmit (inputValue : Option String)
    (allListings : Option (List JsVal)) (renderAvailable : Bool) :
    Option (List JsVal) :=
  match inputValue with
  | none => none
  | some v =>
    let query := jsToLower (jsTrim v)
    let listings := allListings.getD []
    if ¬ renderAvailable then none
    else if query = "" then some listings
    else some (listings.filter (searchMatches query))

/-- Case-insensitive substring containment as the claim words it: the
query is a substring of the field up to letter case. -/
def containsCaseInsensitive (hay q : String) : Bool :=
  strContains (jsToLower hay) (jsToLower q)

/-- The claim's membership predicate for a raw query string `q`: the
title or the description contains `q` as a case-insensitive substring. -/
def claimSearchPred (q : String) (l : JsVal) : Bool :=
  containsCaseInsensitive (strOrEmpty (fieldOf l "title")) q ||
  containsCaseInsensitive (strOrEmpty (fieldOf l "description")) q

/-! ### Network calls and page controllers -/

/-- One outgoing request, by resource and verb. -/
inductive NetCall where
  | bidPost : String → Int → NetCall
  | listingGet : String → NetCall
  | profileGet : String → NetCall
  | listingPut : String → NetCall
  | listingDelete : String → NetCall
deriving DecidableEq

/-- Whether a request is the listing update (PUT). -/
def NetCall.isUpdate : NetCall → Bool
  | .listingPut _ => true
  | _ => false

/-- How one invocation of a bid handler ended. -/
inductive BidOutcome where
  | noOp
  | redirectedLogin
  | rejected
  | failed
  | succeeded
deriving DecidableEq

/-- Truthiness of the stored token as `requireAuth`/`placeBid` test it
(`!token`). -/
def tokenTruthy (st : Store) : Bool :=
  match getToken st with
  | some t => storedTruthy t
  | none => false

/-- Truthiness of the stored profile as the controllers test it
(`!profile`). -/
def profileTruthy (st : Store) : Bool :=
  match getProfile st with
  | some p => truthy p
  | none => false

/-- Embedding of `refreshProfileCredits` (the function appears verbatim
in both the dashboard and the listing-detail controller): bail out when
token or `profile?.name` is falsy; otherwise issue the profile GET, and
only on a successful response (`profResp = some updated`, covering
`res.ok` plus JSON parsing) overwrite the session via
`saveAuth({ accessToken: token, ...updatedProfile })`. Every failure path
is caught internally. The credits DOM write is not tracked. -/
def refreshProfileCredits (profResp : Option JsVal) (st : Store) :
    Store × List NetCall :=
  if ¬ tokenTruthy st then (st, [])
  else
    match getProfile st with
    | none => (st, [])
    | some p =>
      let nameV := optField p "name"
      if ¬ truthy nameV then (st, [])
      else
        let calls := [NetCall.profileGet (jsToString nameV)]
        match profResp with
        | none => (st, calls)
        | some updated =>
          let tokVal :=
            match getToken st with
            | some t => storedToJs t
            | none => .undefined
          (saveAuth (objLit (("accessToken", tokVal) :: fieldsOf updated)) st,
            calls)

/-- The highest-bid text that `renderListing` (listing-detail) writes:
destructuring the listing throws on a nullish value, then
`_count?.bids ?? (Array.isArray(bids) ? bids.length : 0)` selects the bid
count and `getHighestBidAmount` (which may itself throw) feeds the
`` `${highestBid} credits` `` template, with `"No bids yet"` when the
count is strictly equal to `0`. -/
def renderHighestText (listing : JsVal) : Except Unit String := do
  let cntV ← getField listing "_count"
  let bids ← getField listing "bids"
  let cb := optField cntV "bids"
  let bidsCount : JsVal :=
    if isNullish cb then
      .number (match bids with | .array l => (l.length : Int) | _ => 0)
    else cb
  let h ← getHighestBidAmount listing
  pure (if jsStrictEq bidsCount (.number 0) then "No bids yet"
        else toString h ++ " credits")

/-- State the listing-detail controller owns: the in-memory
`currentListing`, the highest-bid label's text, and the auth store. -/
structure DetailState where
  currentListing : Option JsVal
  displayHighest : Option String
  store : Store

/-- The listing-detail `placeBid`: throws before any request when token
or profile is falsy, otherwise issues the bid POST whose outcome is the
oracle `bidResp` (its error message derivation is `errMsgDetailPlaceBid`). -/
def placeBidDetail (st : Store) (listingId : String) (amount : Int)
    (bidResp : Except String JsVal) : Except String JsVal × List NetCall :=
  if ¬ (tokenTruthy st ∧ profileTruthy st) then
    (.error "You must be logged in to place a bid.", [])
  else (bidResp, [NetCall.bidPost listingId amount])

/-- Embedding of `handleBidSubmit` (listing-detail controller). Inputs:
the parsed-number semantics of `Number(...)` as `parseNum`, the raw input
value, and one oracle per network interaction (`bidResp` for the bid
POST, `fetchResp` for the listing re-fetch, `profResp` for the profile
refresh). Returns the new controller state, the requests issued, and the
outcome; `.failed` covers both a caught error (alert) and an escaping
`TypeError` from `getHighestBidAmount`. -/
def handleBidSubmit (parseNum : String → Option Int) (inputValue : String)
    (bidResp fetchResp : Except String JsVal) (profResp : Option JsVal)
    (st : DetailState) : DetailState × List NetCall × BidOutcome :=
  match st.currentListing with
  | none => (st, [], .noOp)
  | some listing =>
    if ¬ truthy listing then (st, [], .noOp)
    else if ¬ (tokenTruthy st.store ∧ profileTruthy st.store) then
      (st, [], .redirectedLogin)
    else if inputValue = "" then (st, [], .rejected)
    else
      match parseNum inputValue with
      | none => (st, [], .rejected)
      | some amount =>
        if amount ≤ 0 then (st, [], .rejected)
        else
          match getHighestBidAmount listing with
          | .error _ => (st, [], .failed)
          | .ok currentHighest =>
            if amount ≤ currentHighest then (st, [], .rejected)
            else
              let listingId := jsToString (fieldOf listing "id")
              match placeBidDetail st.store listingId amount bidResp with
              | (.error _, calls) => (st, calls, .failed)
              | (.ok _, calls1) =>
                let calls2 := calls1 ++ [NetCall.listingGet listingId]
                match fetchResp with
                | .error _ => (st, calls2, .failed)
                | .ok fresh =>
                  match renderHighestText fresh with
                  | .error _ =>
                      ({ st with currentListing := some fresh }, calls2,
                        .failed)
                  | .ok txt =>
                      let res := refreshProfileCredits profResp st.store
                      ({ currentListing := some fresh,
                         displayHighest := some txt,
                         store := res.1 }, calls2 ++ res.2, .succeeded)

/-- State one dashboard listing card owns: the captured `listing` object
(mutated in place by `Object.assign`), the card's highest-bid and badge
texts, and the auth store. -/
structure CardState where
  listing : JsVal
  displayHighest : String
  displayBadge : String
  store : Store

/-- The dashboard `placeBid`: throws before any request when the token is
falsy (no profile check in this copy), otherwise issues the bid POST
(its error message derivation is `errMsgDashboard`). -/
def placeBidDashboard (st : Store) (listingId : String) (amount : Int)
    (bidResp : Except String JsVal) : Except String JsVal × List NetCall :=
  if ¬ tokenTruthy st then
    (.error "You must be logged in to place a bid.", [])
  else (bidResp, [NetCall.bidPost listingId amount])

/-- Embedding of the bid-button click handler installed by
`createListingCard` (dashboard controller): validation, the bid POST,
the listing re-fetch, `Object.assign(listing, freshListing)`, the badge
and highest-bid DOM writes, and the profile refresh. `.failed` covers
both a caught error and an escaping `TypeError`. -/
def dashboardBidClick (parseNum : String → Option Int) (inputValue : String)
    (bidResp fetchResp : Except String JsVal) (profResp : Option JsVal)
    (st : CardState) : CardState × List NetCall × BidOutcome :=
  if inputValue = "" then (st, [], .rejected)
  else
    match parseNum inputValue with
    | none => (st, [], .rejected)
    | some amount =>
      if amount ≤ 0 then (st, [], .rejected)
      else
        match getHighestBidAmount st.listing with
        | .error _ => (st, [], .failed)
        | .ok currentHighest =>
          if amount ≤ currentHighest then (st, [], .rejected)
          else
            let listingId := jsToString (fieldOf st.listing "id")
            match placeBidDashboard st.store listingId amount bidResp with
            | (.error _, calls) => (st, calls, .failed)
            | (.ok _, calls1) =>
              let calls2 := calls1 ++ [NetCall.listingGet listingId]
              match fetchResp with
              | .error _ => (st, calls2, .failed)
              | .ok fresh =>
                let merged := objAssign st.listing fresh
                match getField fresh "_count" with
                | .error _ => ({ st with listing := merged }, calls2, .failed)
                | .ok cntV =>
                  let cb := optField cntV "bids"
                  let newCount : JsVal :=
                    if isNullish cb then
                      .number (match fieldOf fresh "bids" with
                        | .array l => (l.length : Int)
                        | _ => 0)
                    else cb
                  match getHighestBidAmount fresh with
                  | .error _ =>
                      ({ st with listing := merged }, calls2, .failed)
                  | .ok nh =>
                    let res := refreshProfileCredits profResp st.store
                    ({ listing := merged,
                       displayHighest := toString nh ++ " credits",
                       displayBadge := jsToString newCount ++ " bid" ++
                         (if jsStrictEq newCount (.number 1) then "" else "s"),
                       store := res.1 }, calls2 ++ res.2, .succeeded)

/-! ### Edit-page load flow (`src/features/edit.js`) -/

/-- Observable result of the edit page's `DOMContentLoaded` flow. -/
structure EditLoadResult where
  calls : List NetCall
  redirect : Option String
  formPopulated : Bool

/-- Embedding of the edit page's `DOMContentLoaded` handler through
`populateForm`: `requireAuth` (redirect to `login.html` on a falsy token
or profile, before any request), the listing-id check, the listing GET
(`fetchListing`, outcome oracle `fetchResp`, whose failure is caught and
redirects to `profile.html`), then `populateForm`'s ownership check
`!seller || seller.name !== currentUserName`, which alerts and redirects
to `profile.html` on mismatch; destructuring a nullish listing throws
into the same catch. No update (PUT) request occurs anywhere in this
flow — `handleSave` only runs on a later submit event. -/
def editPageLoad (st : Store) (urlId : Option String)
    (fetchResp : Except String JsVal) : EditLoadResult :=
  if ¬ (tokenTruthy st ∧ profileTruthy st) then
    ⟨[], some "login.html", false⟩
  else
    match urlId with
    | none => ⟨[], some "profile.html", false⟩
    | some id =>
      if id = "" then ⟨[], some "profile.html", false⟩
      else
        let calls := [NetCall.listingGet id]
        match fetchResp with
        | .error _ => ⟨calls, some "profile.html", false⟩
        | .ok listing =>
          match getField listing "seller" with
          | .error _ => ⟨calls, some "profile.html", false⟩
          | .ok sellerV =>
            let viewer :=
              match getProfile st with
              | some p => p
              | none => .undefined
            let viewerName := fieldOf viewer "name"
            if ¬ truthy sellerV ∨
                ¬ jsStrictEq (fieldOf sellerV "name") viewerName then
              ⟨calls, some "profile.html", false⟩
            else
              ⟨calls, none, true⟩

/-- Specification-side amount of one (non-nullish) bid entry: its numeric
`amount` field, or `0` when the field is missing or non-numeric. -/
def bidAmount (b : JsVal) : Int :=
  match fieldOf b "amount" with
  | .number n => n
  | _ => 0

/-- The claim's premise for a rejected bid entry against a listing: the
entered value is empty, not a number, not positive, or does not exceed
the listing's currently known highest bid. -/
def invalidBidEntry (parseNum : String → Option Int) (v : String)
    (listing : JsVal) : Prop :=
  v = "" ∨ parseNum v = none ∨
    ∃ a, parseNum v = some a ∧
      (a ≤ 0 ∨ ∃ h, getHighestBidAmount listing = Except.ok h ∧ a ≤ h)

/-! ### Helper lemmas -/

theorem getField_ok (v : JsVal) (k : String) (h : isNullish v = false) :
    getField v k = .ok (fieldOf v k) := by
  cases v <;> simp_all [isNullish, getField]

theorem lookup_eraseKey (k : String) (fs : List (String × JsVal)) :
    (eraseKey k fs).lookup k = none := by
  induction fs with
  | nil => rfl
  | cons kv rest ih =>
    rcases kv with ⟨k1, v1⟩
    by_cases h : k1 = k
    · have h1 : eraseKey k ((k1, v1) :: rest) = eraseKey k rest := by
        simp [eraseKey, h]
      rw [h1]
      exact ih
    · have h1 : eraseKey k ((k1, v1) :: rest) = (k1, v1) :: eraseKey k rest := by
        simp [eraseKey, h]
      have hne : (k == k1) = false := by
        simp only [beq_eq_false_iff_ne, ne_eq]
        exact fun he => h he.symm
      rw [h1]
      simp only [List.lookup, hne]
      exact ih

/-! ### C5: auth round trip -/

/-- C5: for every non-empty token `T` and profile record `P`, calling
`saveAuth` with an argument whose `accessToken` field is `T` and whose
remaining fields are those of `P` makes `getToken` return exactly `T` and
`getProfile` return exactly `P` with any embedded `accessToken` field
removed; the stored profile never contains the token key. The `hclean`
hypothesis records the modeling assumption that `P` carries no
`undefined`-valued member (real `JSON.stringify` would drop such a
member; the app only saves profiles parsed from JSON, which cannot
contain one). -/
theorem saveAuth_roundTrip (T : String) (P data : List (String × JsVal))
    (st : Store) (hT : T ≠ "")
    (htok : data.lookup "accessToken" = some (.string T))
    (hfields : eraseKey "accessToken" data = eraseKey "accessToken" P)
    (hclean : (eraseKey "accessToken" P).all (fun kv => !(isUndef kv.2)) = true) :
    getToken (saveAuth data st) = some (.plain T) ∧
    getProfile (saveAuth data st) =
      some (.object (eraseKey "accessToken" P)) ∧
    (eraseKey "accessToken" P).lookup "accessToken" = none := by
  refine ⟨?_, ?_, lookup_eraseKey _ _⟩
  · simp [saveAuth, htok, hfields, truthy, hT, getToken, getItem, setItem,
      jsToString, TOKEN_KEY, PROFILE_KEY]
  · simp [saveAuth, htok, hfields, truthy, hT, getProfile, getItem, setItem,
      storedTruthy, tryJsonParse, TOKEN_KEY, PROFILE_KEY]

/-- C5 witness: the round trip at a concrete token, profile and store. -/
theorem saveAuth_roundTrip_witness :
    getToken (saveAuth [("accessToken", .string "t"), ("name", .string "bob")]
        (fun _ => none)) = some (.plain "t") ∧
    getProfile (saveAuth [("accessToken", .string "t"), ("name", .string "bob")]
        (fun _ => none)) =
      some (.object (eraseKey "accessToken" [("name", .string "bob")])) ∧
    (eraseKey "accessToken" [("name", .string "bob")]).lookup "accessToken" =
      none :=
  saveAuth_roundTrip "t" [("name", .string "bob")]
    [("accessToken", .string "t"), ("name", .string "bob")]
    (fun _ => none) (by decide) rfl rfl rfl

/-! ### C9: saveAuth without a truthy token -/

/-- C9: a `saveAuth` call whose argument has no truthy `accessToken`
field overwrites the stored profile with the argument's (remaining)
fields but leaves the token key exactly as it was — neither updated nor
removed — so the stored token can go stale relative to the profile. -/
theorem saveAuth_staleToken (data : List (String × JsVal)) (st : Store)
    (h : truthy ((data.lookup "accessToken").getD .undefined) = false) :
    getItem TOKEN_KEY (saveAuth data st) = getItem TOKEN_KEY st ∧
    getItem PROFILE_KEY (saveAuth data st) =
      some (.jsonOf (.object (eraseKey "accessToken" data))) := by
  constructor
  · simp [saveAuth, h, getItem, setItem, TOKEN_KEY, PROFILE_KEY]
  · simp [saveAuth, h, getItem, setItem, TOKEN_KEY, PROFILE_KEY]

/-- C9 witness: saving a token-less object over a store holding an old
token leaves the old token in place and overwrites the profile. -/
theorem saveAuth_staleToken_witness :
    getItem TOKEN_KEY
        (saveAuth [("name", .string "x")] (fun _ => some (.plain "old"))) =
      getItem TOKEN_KEY (fun _ => some (.plain "old")) ∧
    getItem PROFILE_KEY
        (saveAuth [("name", .string "x")] (fun _ => some (.plain "old"))) =
      some (.jsonOf (.object (eraseKey "accessToken" [("name", .string "x")]))) :=
  saveAuth_staleToken [("name", .string "x")] (fun _ => some (.plain "old")) rfl

/-! ### C10: getProfile nullifies bad stored data -/

/-- C10: `getProfile` is total (the parse failure is caught): an absent
stored profile yields `null`, and a stored string that is not valid JSON
(every `.plain` string in this model) also yields `null`, so a corrupted
stored profile reads as an unauthenticated session. -/
theorem getProfile_total (st : Store) :
    (getItem PROFILE_KEY st = none → getProfile st = none) ∧
    (∀ s, getItem PROFILE_KEY st = some (.plain s) → getProfile st = none) := by
  constructor
  · intro h
    simp [getProfile, h]
  · intro s h
    by_cases hs : s = "" <;>
      simp [getProfile, h, storedTruthy, tryJsonParse, hs]

/-- C10 witness: both the absent case and the corrupted case at concrete
stores. -/
theorem getProfile_total_witness :
    getProfile (fun _ => none) = none ∧
    getProfile (fun _ => some (.plain "not json")) = none :=
  ⟨(getProfile_total (fun _ => none)).1 rfl,
    (getProfile_total (fun _ => some (.plain "not json"))).2 "not json" rfl⟩

/-! ### C4: highest bid -/

theorem exceptOkBind {ε α β : Type} (a : α) (f : α → Except ε β) :
    ((Except.ok a : Except ε α) >>= f) = f a := rfl

theorem bidStep_ok (b : JsVal) (mx : Int) (hb : isNullish b = false) :
    ((do
      let av ← getField b "amount"
      let amount : Int := match av with | .number n => n | _ => 0
      pure (if amount > mx then amount else mx)) : Except Unit Int) =
      .ok (max mx (bidAmount b)) := by
  rw [getField_ok b "amount" hb]
  show Except.ok (if bidAmount b > mx then bidAmount b else mx) =
    Except.ok (max mx (bidAmount b))
  rcases le_or_lt (bidAmount b) mx with hle | hlt
  · rw [if_neg (not_lt.mpr hle), max_eq_left hle]
  · rw [if_pos hlt, max_eq_right (le_of_lt hlt)]

theorem foldBids_ok (l : List JsVal) (mx : Int)
    (h : ∀ b ∈ l, isNullish b = false) :
    (l.foldlM (fun mx bid => do
        let av ← getField bid "amount"
        let amount : Int := match av with | .number n => n | _ => 0
        pure (if amount > mx then amount else mx)) mx : Except Unit Int) =
      .ok (l.foldl (fun m b => max m (bidAmount b)) mx) := by
  induction l generalizing mx with
  | nil => rfl
  | cons b bs ih =>
    have hb : isNullish b = false := h b (List.mem_cons_self b bs)
    have hbs : ∀ x ∈ bs, isNullish x = false :=
      fun x hx => h x (List.mem_cons_of_mem b hx)
    rw [List.foldlM_cons, bidStep_ok b mx hb, exceptOkBind, ih _ hbs,
      List.foldl_cons]

/-- C4 (amended): `getHighestBidAmount` never throws on a listing whose
`bids` entries are all non-nullish: a missing, non-array or empty `bids`
field yields `0`, and an array of non-nullish entries yields the
maximum of `0` and the numeric `amount` fields, entries with a
non-numeric `amount` contributing `0` (so an all-negative bid set yields
`0`, not its true maximum). A `null` or `undefined` entry in the `bids`
array makes the function throw a `TypeError` instead. -/
theorem getHighestBidAmount_characterization (listing : JsVal)
    (hrec : isNullish listing = false) :
    ((∀ l, fieldOf listing "bids" ≠ .array l) →
      getHighestBidAmount listing = .ok 0) ∧
    (∀ l, fieldOf listing "bids" = .array l →
      (∀ b ∈ l, isNullish b = false) →
      getHighestBidAmount listing =
        .ok (l.foldl (fun m b => max m (bidAmount b)) 0)) := by
  constructor
  · intro hna
    unfold getHighestBidAmount
    rw [getField_ok listing "bids" hrec]
    cases hv : fieldOf listing "bids" with
    | array l => exact absurd hv (hna l)
    | null => rfl
    | undefined => rfl
    | boolean b => rfl
    | number n => rfl
    | string s => rfl
    | object fs => rfl
  · intro l hl hnn
    unfold getHighestBidAmount
    rw [getField_ok listing "bids" hrec, hl, exceptOkBind]
    cases l with
    | nil => rfl
    | cons b bs =>
      exact foldBids_ok (b :: bs) 0 hnn

/-- C4 counterexample: on `{ bids: [null] }` the code throws a
`TypeError` (`bid.amount` on `null`), refuting "never throws"; on
`{ bids: [{ amount: -5 }] }` it returns `0`, not the bid set's true
maximum `-5`, refuting "returns the maximum of the numeric amount
fields". -/
theorem getHighestBidAmount_claim_false :
    getHighestBidAmount (.object [("bids", .array [.null])]) = .error () ∧
    getHighestBidAmount
        (.object [("bids", .array [.object [("amount", .number (-5))]])]) =
      .ok 0 ∧
    (Except.ok (0 : Int) : Except Unit Int) ≠ Except.ok (-5) := by
  refine ⟨rfl, rfl, ?_⟩
  intro h
  exact absurd (Except.ok.inj h) (by decide)

/-- C4 witness: the amended characterization at a listing with no `bids`
field and at a listing with two well-formed bids. -/
theorem getHighestBidAmount_characterization_witness :
    getHighestBidAmount (.object [("title", .string "vase")]) = .ok 0 ∧
    getHighestBidAmount (.object [("bids", .array
        [.object [("amount", .number 3)], .object [("amount", .number 7)]])]) =
      .ok ([JsVal.object [("amount", .number 3)],
            JsVal.object [("amount", .number 7)]].foldl
        (fun m b => max m (bidAmount b)) 0) :=
  ⟨(getHighestBidAmount_characterization (.object [("title", .string "vase")])
      rfl).1 (fun l hl => by simp [fieldOf, lookupField, List.lookup] at hl),
   (getHighestBidAmount_characterization (.object [("bids", .array
        [.object [("amount", .number 3)], .object [("amount", .number 7)]])])
      rfl).2 _ rfl (by decide)⟩

/-! ### C3: time remaining -/

theorem nestedUnits_eq (d : Nat) :
    (if d / 60000 / 60 / 24 ≥ 1 then
      "in about " ++ toString (d / 60000 / 60 / 24) ++ " day" ++
        (if d / 60000 / 60 / 24 > 1 then "s" else "")
    else if d / 60000 / 60 ≥ 1 then
      "in about " ++ toString (d / 60000 / 60) ++ " hour" ++
        (if d / 60000 / 60 > 1 then "s" else "")
    else
      "in about " ++ toString (d / 60000) ++ " minute" ++
        (if d / 60000 > 1 then "s" else "")) = timeRemainingFuture d := by
  have e1 : d / 60000 / 60 = d / 3600000 := by
    rw [Nat.div_div_eq_div_mul]
  have e2 : d / 3600000 / 24 = d / 86400000 := by
    rw [Nat.div_div_eq_div_mul]
  have c1 : (1 ≤ d / 86400000) ↔ (86400000 ≤ d) :=
    Nat.one_le_div_iff (by norm_num)
  have c2 : (1 ≤ d / 3600000) ↔ (3600000 ≤ d) :=
    Nat.one_le_div_iff (by norm_num)
  rw [e1, e2]
  unfold timeRemainingFuture
  simp only [ge_iff_le, c1, c2]

/-- C3 (amended): `getTimeRemaining` returns `""` (not `"Ended"`) when
`endsAt` is absent or empty; returns the literal `"in about NaN minute"`
(not `"Ended"`) when `endsAt` is a non-empty string that does not parse
as a date; returns `"Ended"` when the parsed deadline is at or before
now (boundary inclusive); and for a deadline strictly in the future
returns an `"in about N <unit>(s)"` string using the largest applicable
unit among days, hours, minutes (falling back to minutes — including
`"in about 0 minute"` — under one minute), with the plural `s` exactly
when `N > 1`. -/
theorem getTimeRemaining_characterization (parse : String → Option Int)
    (nowMs : Int) :
    getTimeRemaining parse nowMs none = "" ∧
    getTimeRemaining parse nowMs (some "") = "" ∧
    (∀ s, s ≠ "" → parse s = none →
      getTimeRemaining parse nowMs (some s) = "in about NaN minute") ∧
    (∀ s e, s ≠ "" → parse s = some e → e ≤ nowMs →
      getTimeRemaining parse nowMs (some s) = "Ended") ∧
    (∀ s e, s ≠ "" → parse s = some e → nowMs < e →
      getTimeRemaining parse nowMs (some s) =
        timeRemainingFuture (e - nowMs).toNat) := by
  refine ⟨rfl, rfl, ?_, ?_, ?_⟩
  · intro s hs hp
    simp [getTimeRemaining, hs, hp]
  · intro s e hs hp he
    simp only [getTimeRemaining, hs, hp, if_neg hs]
    rw [if_pos (show e - nowMs ≤ 0 by omega)]
    simp
  · intro s e hs hp he
    simp only [getTimeRemaining, hs, hp, if_neg hs]
    rw [if_neg (show ¬ (e - nowMs ≤ 0) by omega)]
    exact nestedUnits_eq (e - nowMs).toNat

/-- C3 counterexample: an absent `endsAt` yields `""` and an unparseable
`endsAt` yields `"in about NaN minute"`, refuting the claim that both
yield `"Ended"`. -/
theorem getTimeRemaining_claim_false :
    getTimeRemaining (fun _ => none) 0 none = "" ∧
    ("" : String) ≠ "Ended" ∧
    getTimeRemaining (fun _ => none) 0 (some "not-a-date") =
      "in about NaN minute" ∧
    ("in about NaN minute" : String) ≠ "Ended" := by
  exact ⟨rfl, by decide, rfl, by decide⟩

/-- C3 witness: the characterization applied at a concrete clock, parse
function, past date and future date. -/
theorem getTimeRemaining_characterization_witness :
    getTimeRemaining (fun _ => some 90000000) 90000000 (some "past") =
      "Ended" ∧
    getTimeRemaining (fun _ => some 90000000) 0 (some "future") =
      timeRemainingFuture ((90000000 : Int) - 0).toNat :=
  ⟨(getTimeRemaining_characterization (fun _ => some 90000000)
      90000000).2.2.2.1 "past" 90000000 (by decide) rfl (by decide),
   (getTimeRemaining_characterization (fun _ => some 90000000)
      0).2.2.2.2 "future" 90000000 (by decide) rfl (by decide)⟩

/-! ### C6: gateway error messages -/

/-- C6 (amended): each modeled gateway function derives its error message
by first taking a truthy `errors[0].message`; only the listing-detail
`fetchListing` and `placeBid` then consult the generic `message` field;
and the final fallback string is function-specific — `"Failed to load
listing (<status>)"`, `"Failed to place bid (<status>)"` and `"Failed to
update listing (<status>)"` — while the dashboard functions use
`"API error: <status>"` but skip the generic `message` field (and throw
a `TypeError` on a nullish parsed body, hence the guard). -/
theorem errMsg_priority (body : JsVal) (status : Nat) :
    errMsgDetailFetch body status =
      prioErrMsg body true
        ("Failed to load listing (" ++ toString status ++ ")") ∧
    errMsgDetailPlaceBid body status =
      prioErrMsg body true
        ("Failed to place bid (" ++ toString status ++ ")") ∧
    errMsgUpdateListing body status =
      prioErrMsg body false
        ("Failed to update listing (" ++ toString status ++ ")") ∧
    (isNullish body = false →
      errMsgDashboard body status =
        .ok (prioErrMsg body false ("API error: " ++ toString status))) := by
  refine ⟨?_, ?_, ?_, ?_⟩
  · by_cases h1 : truthy (optErrorsChainMsg body)
    · simp [errMsgDetailFetch, prioErrMsg, claimFirstStructuredMsg, h1]
    · by_cases h2 : truthy (optField body "message") <;>
        simp [errMsgDetailFetch, prioErrMsg, claimFirstStructuredMsg,
          claimGenericMsg, h1, h2]
  · by_cases h1 : truthy (optErrorsChainMsg body)
    · simp [errMsgDetailPlaceBid, prioErrMsg, claimFirstStructuredMsg, h1]
    · by_cases h2 : truthy (optField body "message") <;>
        simp [errMsgDetailPlaceBid, prioErrMsg, claimFirstStructuredMsg,
          claimGenericMsg, h1, h2]
  · by_cases h1 : truthy (optErrorsChainMsg body) <;>
      simp [errMsgUpdateListing, prioErrMsg, claimFirstStructuredMsg, h1]
  · intro hnn
    have hge : getField body "errors" = .ok (fieldOf body "errors") :=
      getField_ok body "errors" hnn
    have ho : optErrorsChainMsg body = errorsChainMsg (fieldOf body "errors") := by
      simp [optErrorsChainMsg, hnn]
    by_cases h1 : truthy (errorsChainMsg (fieldOf body "errors")) <;>
      simp [errMsgDashboard, hge, exceptOkBind, prioErrMsg,
        claimFirstStructuredMsg, ho, h1]

/-- C6 counterexample: `updateListing` ignores a generic `message` field
("boom") that the claim's priority order would select, and
`fetchListing`'s fallback string differs from the claim's
`"API error: <status>"`. -/
theorem errMsg_claim_false :
    errMsgUpdateListing (.object [("message", .string "boom")]) 500 =
      "Failed to update listing (500)" ∧
    claimErrMsg (.object [("message", .string "boom")]) 500 = "boom" ∧
    ("Failed to update listing (500)" : String) ≠ "boom" ∧
    errMsgDetailFetch (.object []) 404 = "Failed to load listing (404)" ∧
    claimErrMsg (.object []) 404 = "API error: 404" ∧
    ("Failed to load listing (404)" : String) ≠ "API error: 404" := by
  exact ⟨rfl, rfl, by decide, rfl, rfl, by decide⟩

/-- C6 witness: the dashboard conjunct of the priority theorem at a
concrete structured error body. -/
theorem errMsg_priority_witness :
    errMsgDashboard
        (.object [("errors", .array [.object [("message", .string "nope")]])])
        403 =
      .ok (prioErrMsg
        (.object [("errors", .array [.object [("message", .string "nope")]])])
        false ("API error: " ++ toString 403)) :=
  (errMsg_priority
    (.object [("errors", .array [.object [("message", .string "nope")]])])
    403).2.2.2 rfl

/-! ### C8: search filter -/

theorem jsToLower_eq_empty (s : String) : jsToLower s = "" ↔ s = "" := by
  constructor
  · intro h
    have hd : s.data.map jsCharLower = [] := congrArg String.data h
    have hnil : s.data = [] := List.map_eq_nil.mp hd
    cases s
    simp_all
  · intro h
    rw [h]
    rfl

/-- C8 (amended): `handleSearchSubmit` first trims (and lowercases) the
entered value; when the trimmed query is empty it renders the loaded
array unchanged, and otherwise it renders exactly the subsequence whose
title or description contains the trimmed query as a case-insensitive
substring, preserving the original order (the claim as stated, with the
untrimmed entered value as the query, fails on whitespace-padded input).
The hypothesis `hA` records that the loaded listings are non-nullish
(a nullish element would make the filter callback throw). -/
theorem handleSearch_characterization (v : String) (A : List JsVal)
    (hA : A.all (fun l => !(isNullish l)) = true) :
    (jsTrim v = "" → handleSearchSubmit (some v) (some A) true = some A) ∧
    (jsTrim v ≠ "" →
      handleSearchSubmit (some v) (some A) true =
        some (A.filter (claimSearchPred (jsTrim v)))) ∧
    (A.filter (claimSearchPred (jsTrim v))).Sublist A := by
  refine ⟨?_, ?_, List.filter_sublist A⟩
  · intro h
    rw [show handleSearchSubmit (some v) (some A) true =
        (if jsToLower (jsTrim v) = "" then some A
         else some (A.filter (searchMatches (jsToLower (jsTrim v))))) from rfl]
    rw [h, if_pos (show jsToLower "" = "" from rfl)]
  · intro h
    have hq : jsToLower (jsTrim v) ≠ "" :=
      fun hc => h ((jsToLower_eq_empty (jsTrim v)).mp hc)
    rw [show handleSearchSubmit (some v) (some A) true =
        (if jsToLower (jsTrim v) = "" then some A
         else some (A.filter (searchMatches (jsToLower (jsTrim v))))) from rfl]
    rw [if_neg hq]
    rfl

/-- C8 counterexample: with the whitespace query `"  "` (non-empty, and
contained in no listing's title or description) the handler renders the
full array, while the claim as stated demands the empty filtered
subsequence. -/
theorem handleSearch_claim_false :
    handleSearchSubmit (some "  ")
        (some [JsVal.object [("title", JsVal.string "x"),
                             ("description", JsVal.string "")]]) true =
      some [JsVal.object [("title", JsVal.string "x"),
                          ("description", JsVal.string "")]] ∧
    [JsVal.object [("title", JsVal.string "x"),
                   ("description", JsVal.string "")]].filter
        (claimSearchPred "  ") = [] := by
  exact ⟨rfl, rfl⟩

/-- C8 witness: the filtering branch at a concrete mixed-case query and
two listings, of which exactly one matches. -/
theorem handleSearch_characterization_witness :
    handleSearchSubmit (some "Va")
        (some [JsVal.object [("title", JsVal.string "vase"),
                             ("description", JsVal.string "")],
               JsVal.object [("title", JsVal.string "lamp"),
                             ("description", JsVal.string "")]]) true =
      some ([JsVal.object [("title", JsVal.string "vase"),
                           ("description", JsVal.string "")],
             JsVal.object [("title", JsVal.string "lamp"),
                           ("description", JsVal.string "")]].filter
        (claimSearchPred (jsTrim "Va"))) :=
  (handleSearch_characterization "Va"
    [JsVal.object [("title", JsVal.string "vase"),
                   ("description", JsVal.string "")],
     JsVal.object [("title", JsVal.string "lamp"),
                   ("description", JsVal.string "")]] rfl).2.1 (by decide)

/-! ### C7: edit-page ownership guard -/

/-- C7 (amended): on an edit-page load where the fetched listing's seller
name differs from the viewer's profile name, the controller redirects to
`profile.html` without populating the form, and the only network request
of the flow is the initial listing GET — in particular no update (PUT)
request is ever issued; the redirect cannot precede every network call,
because the seller name is only known from the listing GET's response. -/
theorem editLoad_ownershipGuard (st : Store) (id : String)
    (listing sellerV viewer : JsVal) (hid : id ≠ "")
    (htok : tokenTruthy st = true) (hprof : profileTruthy st = true)
    (hview : getProfile st = some viewer)
    (hseller : getField listing "seller" = .ok sellerV)
    (hmS : truthy sellerV = false ∨
      jsStrictEq (fieldOf sellerV "name") (fieldOf viewer "name") = false) :
    editPageLoad st (some id) (.ok listing) =
      ⟨[NetCall.listingGet id], some "profile.html", false⟩ ∧
    ∀ c ∈ (editPageLoad st (some id) (.ok listing)).calls,
      c.isUpdate = false := by
  have hmain : editPageLoad st (some id) (.ok listing) =
      ⟨[NetCall.listingGet id], some "profile.html", false⟩ := by
    rcases hmS with hm | hm <;>
      simp [editPageLoad, htok, hprof, hid, hview, hseller, hm]
  refine ⟨hmain, ?_⟩
  rw [hmain]
  intro c hc
  rcases List.mem_singleton.mp hc with rfl
  rfl

/-- C7 counterexample: a concrete mismatching load (viewer "bob", seller
"alice") performs the listing GET before its redirect, refuting
"aborts with a client-side redirect before any network call". -/
theorem editLoad_claim_false :
    (editPageLoad
      (fun k => if k = "ah_token" then some (StoredStr.plain "t")
        else if k = "ah_profile" then
          some (StoredStr.jsonOf (JsVal.object [("name", JsVal.string "bob")]))
        else none)
      (some "7")
      (.ok (JsVal.object
        [("seller", JsVal.object [("name", JsVal.string "alice")])]))).calls =
      [NetCall.listingGet "7"] ∧
    (editPageLoad
      (fun k => if k = "ah_token" then some (StoredStr.plain "t")
        else if k = "ah_profile" then
          some (StoredStr.jsonOf (JsVal.object [("name", JsVal.string "bob")]))
        else none)
      (some "7")
      (.ok (JsVal.object
        [("seller", JsVal.object [("name", JsVal.string "alice")])]))).redirect =
      some "profile.html" ∧
    [NetCall.listingGet "7"] ≠ ([] : List NetCall) := by
  exact ⟨rfl, rfl, by decide⟩

/-- C7 witness: the ownership guard applied at the same concrete
mismatching load. -/
theorem editLoad_ownershipGuard_witness :
    editPageLoad
      (fun k => if k = "ah_token" then some (StoredStr.plain "t")
        else if k = "ah_profile" then
          some (StoredStr.jsonOf (JsVal.object [("name", JsVal.string "bob")]))
        else none)
      (some "9")
      (.ok (JsVal.object
        [("seller", JsVal.object [("name", JsVal.string "alice")])])) =
      ⟨[NetCall.listingGet "9"], some "profile.html", false⟩ ∧
    ∀ c ∈ (editPageLoad
      (fun k => if k = "ah_token" then some (StoredStr.plain "t")
        else if k = "ah_profile" then
          some (StoredStr.jsonOf (JsVal.object [("name", JsVal.string "bob")]))
        else none)
      (some "9")
      (.ok (JsVal.object
        [("seller", JsVal.object [("name", JsVal.string "alice")])]))).calls,
      c.isUpdate = false :=
  editLoad_ownershipGuard
    (fun k => if k = "ah_token" then some (StoredStr.plain "t")
      else if k = "ah_profile" then
        some (StoredStr.jsonOf (JsVal.object [("name", JsVal.string "bob")]))
      else none)
    "9"
    (JsVal.object [("seller", JsVal.object [("name", JsVal.string "alice")])])
    (JsVal.object [("name", JsVal.string "alice")])
    (JsVal.object [("name", JsVal.string "bob")])
    (by decide) rfl rfl rfl rfl (Or.inr rfl)

/-! ### C1/C2: bid handlers -/

theorem handleBidSubmit_reject (parseNum : String → Option Int) (v : String)
    (bidResp fetchResp : Except String JsVal) (profResp : Option JsVal)
    (stD : DetailState) (L : JsVal)
    (hL : stD.currentListing = some L)
    (hinv : invalidBidEntry parseNum v L) :
    (handleBidSubmit parseNum v bidResp fetchResp profResp stD).1 = stD ∧
    (handleBidSubmit parseNum v bidResp fetchResp profResp stD).2.1 = [] := by
  unfold handleBidSubmit
  rw [hL]
  by_cases ht : truthy L
  · by_cases hauth : tokenTruthy stD.store ∧ profileTruthy stD.store
    · by_cases hv : v = ""
      · simp [ht, hauth, hv]
      · rcases hinv with hv' | hp | ⟨a, hpa, hrest⟩
        · exact absurd hv' hv
        · simp [ht, hauth, hv, hp]
        · simp only [ht, hauth, hv, hpa]
          by_cases ha0 : a ≤ 0
          · simp [ht, hauth, hv, ha0]
          · rcases hrest with ha0' | ⟨hb, hhb, hle⟩
            · exact absurd ha0' ha0
            · simp [ht, hauth, hv, ha0, hhb, hle]
    · simp [ht, hauth]
  · simp [ht]

theorem dashboardBidClick_reject (parseNum : String → Option Int) (v : String)
    (bidResp fetchResp : Except String JsVal) (profResp : Option JsVal)
    (stC : CardState)
    (hinv : invalidBidEntry parseNum v stC.listing) :
    (dashboardBidClick parseNum v bidResp fetchResp profResp stC).1 = stC ∧
    (dashboardBidClick parseNum v bidResp fetchResp profResp stC).2.1 = [] := by
  unfold dashboardBidClick
  by_cases hv : v = ""
  · simp [hv]
  · rcases hinv with hv' | hp | ⟨a, hpa, hrest⟩
    · exact absurd hv' hv
    · simp [hv, hp]
    · simp only [hv, hpa]
      by_cases ha0 : a ≤ 0
      · simp [hv, ha0]
      · rcases hrest with ha0' | ⟨hb, hhb, hle⟩
        · exact absurd ha0' ha0
        · simp [hv, ha0, hhb, hle]

theorem handleBidSubmit_cases (parseNum : String → Option Int) (v : String)
    (bidResp fetchResp : Except String JsVal) (profResp : Option JsVal)
    (stD : DetailState) :
    (handleBidSubmit parseNum v bidResp fetchResp profResp stD).1.currentListing
      = stD.currentListing ∨
    ((∃ d, bidResp = .ok d) ∧ ∃ f, fetchResp = .ok f ∧
      (handleBidSubmit parseNum v bidResp fetchResp profResp
        stD).1.currentListing = some f) := by
  unfold handleBidSubmit
  cases hcl : stD.currentListing with
  | none => exact Or.inl hcl
  | some listing =>
    by_cases ht : truthy listing
    · by_cases hauth : tokenTruthy stD.store ∧ profileTruthy stD.store
      · by_cases hv : v = ""
        · simp [ht, hauth, hv, hcl]
        · cases hpn : parseNum v with
          | none => simp [ht, hauth, hv, hpn, hcl]
          | some a =>
            by_cases ha0 : a ≤ 0
            · simp [ht, hauth, hv, hpn, ha0, hcl]
            · cases hhb : getHighestBidAmount listing with
              | error u => simp [ht, hauth, hv, hpn, ha0, hhb, hcl]
              | ok hcur =>
                by_cases hah : a ≤ hcur
                · simp [ht, hauth, hv, hpn, ha0, hhb, hah, hcl]
                · have hpb : placeBidDetail stD.store
                      (jsToString (fieldOf listing "id")) a bidResp =
                      (bidResp,
                        [NetCall.bidPost (jsToString (fieldOf listing "id")) a]) := by
                    simp [placeBidDetail, hauth]
                  cases bidResp with
                  | error e =>
                      simp [ht, hauth, hv, hpn, ha0, hhb, hah, hpb, hcl]
                  | ok d =>
                    cases fetchResp with
                    | error e =>
                        simp [ht, hauth, hv, hpn, ha0, hhb, hah, hpb, hcl]
                    | ok f =>
                      cases hrt : renderHighestText f with
                      | error u =>
                        refine Or.inr ⟨⟨d, rfl⟩, f, rfl, ?_⟩
                        simp [ht, hauth, hv, hpn, ha0, hhb, hah, hpb, hrt]
                      | ok txt =>
                        refine Or.inr ⟨⟨d, rfl⟩, f, rfl, ?_⟩
                        simp [ht, hauth, hv, hpn, ha0, hhb, hah, hpb, hrt]
      · simp [ht, hauth, hcl]
    · simp [ht, hcl]

theorem dashboardBidClick_cases (parseNum : String → Option Int) (v : String)
    (bidResp fetchResp : Except String JsVal) (profResp : Option JsVal)
    (stC : CardState) :
    (dashboardBidClick parseNum v bidResp fetchResp profResp stC).1.listing
      = stC.listing ∨
    ((∃ d, bidResp = .ok d) ∧ ∃ f, fetchResp = .ok f ∧
      (dashboardBidClick parseNum v bidResp fetchResp profResp
        stC).1.listing = objAssign stC.listing f) := by
  unfold dashboardBidClick
  by_cases hv : v = ""
  · simp [hv]
  · cases hpn : parseNum v with
    | none => simp [hv, hpn]
    | some a =>
      by_cases ha0 : a ≤ 0
      · simp [hv, hpn, ha0]
      · cases hhb : getHighestBidAmount stC.listing with
        | error u => simp [hv, hpn, ha0, hhb]
        | ok hcur =>
          by_cases hah : a ≤ hcur
          · simp [hv, hpn, ha0, hhb, hah]
          · by_cases htok : tokenTruthy stC.store
            · have hpb : placeBidDashboard stC.store
                  (jsToString (fieldOf stC.listing "id")) a bidResp =
                  (bidResp,
                    [NetCall.bidPost (jsToString (fieldOf stC.listing "id")) a]) := by
                simp [placeBidDashboard, htok]
              cases bidResp with
              | error e => simp [hv, hpn, ha0, hhb, hah, hpb]
              | ok d =>
                cases fetchResp with
                | error e => simp [hv, hpn, ha0, hhb, hah, hpb]
                | ok f =>
                  cases hgc : getField f "_count" with
                  | error u =>
                    refine Or.inr ⟨⟨d, rfl⟩, f, rfl, ?_⟩
                    simp [hv, hpn, ha0, hhb, hah, hpb, hgc]
                  | ok cntV =>
                    cases hhf : getHighestBidAmount f with
                    | error u =>
                      refine Or.inr ⟨⟨d, rfl⟩, f, rfl, ?_⟩
                      simp [hv, hpn, ha0, hhb, hah, hpb, hgc, hhf]
                    | ok nh =>
                      refine Or.inr ⟨⟨d, rfl⟩, f, rfl, ?_⟩
                      simp [hv, hpn, ha0, hhb, hah, hpb, hgc, hhf]
            · have hpb : placeBidDashboard stC.store
                  (jsToString (fieldOf stC.listing "id")) a bidResp =
                  (.error "You must be logged in to place a bid.", []) := by
                simp [placeBidDashboard, htok]
              simp [hv, hpn, ha0, hhb, hah, hpb]

/-- C1: for every bid submission whose entered amount is empty, not a
number, not positive, or not strictly above the currently known highest
bid, both the listing-detail `handleBidSubmit` and the dashboard card's
bid click handler return before issuing any network request, and the
displayed highest-bid text is left unchanged. -/
theorem bidValidation_rejected (parseNum : String → Option Int) (v : String)
    (bidResp fetchResp : Except String JsVal) (profResp : Option JsVal)
    (stD : DetailState) (stC : CardState) (L : JsVal)
    (hL : stD.currentListing = some L)
    (hinvD : invalidBidEntry parseNum v L)
    (hinvC : invalidBidEntry parseNum v stC.listing) :
    (handleBidSubmit parseNum v bidResp fetchResp profResp stD).2.1 = [] ∧
    (handleBidSubmit parseNum v bidResp fetchResp profResp
      stD).1.displayHighest = stD.displayHighest ∧
    (dashboardBidClick parseNum v bidResp fetchResp profResp stC).2.1 = [] ∧
    (dashboardBidClick parseNum v bidResp fetchResp profResp
      stC).1.displayHighest = stC.displayHighest := by
  have hd := handleBidSubmit_reject parseNum v bidResp fetchResp profResp
    stD L hL hinvD
  have hc := dashboardBidClick_reject parseNum v bidResp fetchResp profResp
    stC hinvC
  exact ⟨hd.2, by rw [hd.1], hc.2, by rw [hc.1]⟩

/-- C1 witness: a non-numeric entered amount at concrete states leaves
both controllers' call logs empty and both displays untouched. -/
theorem bidValidation_rejected_witness :
    (handleBidSubmit (fun _ => none) "abc" (.ok .null) (.ok .null) none
      ⟨some (JsVal.object []), some "100 credits", fun _ => none⟩).2.1 = [] ∧
    (handleBidSubmit (fun _ => none) "abc" (.ok .null) (.ok .null) none
      ⟨some (JsVal.object []), some "100 credits",
        fun _ => none⟩).1.displayHighest =
      (⟨some (JsVal.object []), some "100 credits",
        fun _ => none⟩ : DetailState).displayHighest ∧
    (dashboardBidClick (fun _ => none) "abc" (.ok .null) (.ok .null) none
      ⟨JsVal.object [], "100 credits", "0 bids", fun _ => none⟩).2.1 = [] ∧
    (dashboardBidClick (fun _ => none) "abc" (.ok .null) (.ok .null) none
      ⟨JsVal.object [], "100 credits", "0 bids",
        fun _ => none⟩).1.displayHighest =
      (⟨JsVal.object [], "100 credits", "0 bids",
        fun _ => none⟩ : CardState).displayHighest :=
  bidValidation_rejected (fun _ => none) "abc" (.ok .null) (.ok .null) none
    ⟨some (JsVal.object []), some "100 credits", fun _ => none⟩
    ⟨JsVal.object [], "100 credits", "0 bids", fun _ => none⟩
    (JsVal.object []) rfl (Or.inr (Or.inl rfl)) (Or.inr (Or.inl rfl))

/-- C2: on every failed bid attempt — validation failure, failed bid
POST, or failed listing re-fetch — the in-memory listing (the
listing-detail `currentListing` and the dashboard card's `listing`
record) is left exactly as it was; it changes only when both the bid
submission and the subsequent re-fetch succeed, and then it holds the
freshly fetched data (assigned wholesale in the detail controller,
merged via `Object.assign` in the dashboard). -/
theorem bidFailure_noPartialState (parseNum : String → Option Int)
    (v : String) (bidResp fetchResp : Except String JsVal)
    (profResp : Option JsVal) (stD : DetailState) (stC : CardState) :
    (∀ L, stD.currentListing = some L → invalidBidEntry parseNum v L →
      (handleBidSubmit parseNum v bidResp fetchResp profResp
        stD).1.currentListing = stD.currentListing) ∧
    (invalidBidEntry parseNum v stC.listing →
      (dashboardBidClick parseNum v bidResp fetchResp profResp
        stC).1.listing = stC.listing) ∧
    ((∃ e, bidResp = .error e) ∨ (∃ e, fetchResp = .error e) →
      (handleBidSubmit parseNum v bidResp fetchResp profResp
        stD).1.currentListing = stD.currentListing ∧
      (dashboardBidClick parseNum v bidResp fetchResp profResp
        stC).1.listing = stC.listing) ∧
    ((handleBidSubmit parseNum v bidResp fetchResp profResp
        stD).1.currentListing ≠ stD.currentListing →
      (∃ d, bidResp = .ok d) ∧ ∃ f, fetchResp = .ok f ∧
        (handleBidSubmit parseNum v bidResp fetchResp profResp
          stD).1.currentListing = some f) ∧
    ((dashboardBidClick parseNum v bidResp fetchResp profResp
        stC).1.listing ≠ stC.listing →
      (∃ d, bidResp = .ok d) ∧ ∃ f, fetchResp = .ok f ∧
        (dashboardBidClick parseNum v bidResp fetchResp profResp
          stC).1.listing = objAssign stC.listing f) := by
  refine ⟨?_, ?_, ?_, ?_, ?_⟩
  · intro L hL hinv
    rw [(handleBidSubmit_reject parseNum v bidResp fetchResp profResp
      stD L hL hinv).1]
  · intro hinv
    rw [(dashboardBidClick_reject parseNum v bidResp fetchResp profResp
      stC hinv).1]
  · intro herr
    constructor
    · rcases handleBidSubmit_cases parseNum v bidResp fetchResp profResp stD
        with h | ⟨⟨d, hd⟩, f, hf, _⟩
      · exact h
      · rcases herr with ⟨e, he⟩ | ⟨e, he⟩ <;> simp_all
    · rcases dashboardBidClick_cases parseNum v bidResp fetchResp profResp stC
        with h | ⟨⟨d, hd⟩, f, hf, _⟩
      · exact h
      · rcases herr with ⟨e, he⟩ | ⟨e, he⟩ <;> simp_all
  · intro hne
    rcases handleBidSubmit_cases parseNum v bidResp fetchResp profResp stD
      with h | hr
    · exact absurd h hne
    · exact hr
  · intro hne
    rcases dashboardBidClick_cases parseNum v bidResp fetchResp profResp stC
      with h | hr
    · exact absurd h hne
    · exact hr

/-- C2 witness: a failed bid POST at concrete states leaves both
in-memory listings untouched. -/
theorem bidFailure_noPartialState_witness :
    (handleBidSubmit (fun _ => some 5) "5" (.error "boom") (.ok .null) none
      ⟨some (JsVal.object []), some "100 credits", fun _ => none⟩).1.currentListing =
      (⟨some (JsVal.object []), some "100 credits",
        fun _ => none⟩ : DetailState).currentListing ∧
    (dashboardBidClick (fun _ => some 5) "5" (.error "boom") (.ok .null) none
      ⟨JsVal.object [], "100 credits", "0 bids", fun _ => none⟩).1.listing =
      (⟨JsVal.object [], "100 credits", "0 bids",
        fun _ => none⟩ : CardState).listing :=
  (bidFailure_noPartialState (fun _ => some 5) "5" (.error "boom") (.ok .null)
    none ⟨some (JsVal.object []), some "100 credits", fun _ => none⟩
    ⟨JsVal.object [], "100 credits", "0 bids", fun _ => none⟩).2.2.1
    (Or.inl ⟨"boom", rfl⟩)
